import Mathlib

/-!
Shallow embedding of the ShallowFF repository (src/example.py) and proofs
about the claims of its specification.

Modelling conventions:
* a tensor's last dimension is a `List ℝ`; a 2-D tensor (sequence × feature)
  is a `List (List ℝ)`; a 3-D tensor is a `List (List (List ℝ))`;
* operations of the underlying tensor library (torch) that can raise on a
  shape mismatch are modelled in `Except PyErr`; the library is the only
  producer of errors, mirroring the source which defines no error handling;
* float tensors are idealised as exact reals; the dtype constant
  `torch.finfo(float32).max` is kept as the exact real it denotes;
* learned parameters are explicit structure fields (dependency-injected in
  place of torch's random initialisation); `nn.Dropout` is modelled in its
  deterministic (eval-mode) semantics — note every `nn.Dropout` actually
  constructed in this repository has probability 0.0, because all call
  sites pass their `dropout` argument into `FeedForward`'s third positional
  parameter `mult`, leaving `FeedForward`'s own `dropout` at its default 0.0.
-/

/-- Errors raised by the underlying frameworks: `shapeMismatch` is the tensor
library's complaint (e.g. a `nn.Linear` applied to a last dimension different
from its `in_features`), `typeError` is the Python runtime's arity error. -/
inductive PyErr where
  | shapeMismatch (expected got : Nat)
  | typeError
deriving DecidableEq

/-- Dot product of two feature vectors (torch's contraction over the shared
dimension; callers check shapes before using it). -/
noncomputable def dotL (a b : List ℝ) : ℝ :=
  (List.zipWith (fun s t => s * t) a b).sum

/-- Unchecked core of `nn.Linear`: one output entry per weight row,
`row · x + bias`. -/
noncomputable def linearL (W : List (List ℝ)) (b : List ℝ) (x : List ℝ) : List ℝ :=
  List.zipWith (fun row bi => dotL row x + bi) W b

/-- `nn.Linear` as the library exposes it: raises a shape mismatch unless the
input's last dimension equals `in_features`. -/
noncomputable def linearC (inF : Nat) (W : List (List ℝ)) (b : List ℝ) (x : List ℝ) :
    Except PyErr (List ℝ) :=
  if x.length = inF then .ok (linearL W b x) else .error (.shapeMismatch inF x.length)

/-- Standard Gaussian cumulative distribution function, used by GELU. -/
noncomputable def gaussCdf (x : ℝ) : ℝ :=
  (∫ t in Set.Iic x, Real.exp (-(t ^ 2) / 2)) / Real.sqrt (2 * Real.pi)

/-- `nn.GELU` (exact form): `x * Φ(x)`. -/
noncomputable def gelu (x : ℝ) : ℝ := x * gaussCdf x

/-- `nn.Dropout p` in its deterministic (eval-mode) semantics: the identity.
Every dropout layer this repository constructs has `p = 0.0` (the callers'
`dropout` argument lands in `FeedForward`'s `mult` slot), for which torch's
dropout is the identity in training mode as well. -/
def dropoutL (_p : ℚ) (x : List ℝ) : List ℝ := x

/-- Elementwise addition of two tensors of the same last dimension; torch
raises on a (non-broadcastable) shape mismatch. -/
noncomputable def addC (a b : List ℝ) : Except PyErr (List ℝ) :=
  if a.length = b.length then .ok (List.zipWith (fun s t => s + t) a b)
  else .error (.shapeMismatch a.length b.length)

/-- `nn.LayerNorm dim` applied to a vector: checked against `dim`, then
`(x - mean) / sqrt(var + 1e-5) * γ + β` with the biased variance. -/
noncomputable def layerNormC (dim : Nat) (g b : List ℝ) (x : List ℝ) :
    Except PyErr (List ℝ) :=
  if x.length = dim then
    .ok (List.zipWith (fun xi gb => (xi - x.sum / dim) /
      Real.sqrt ((x.map (fun t => (t - x.sum / dim) ^ 2)).sum / dim + 1e-5) * gb.1 + gb.2)
      x (g.zip b))
  else .error (.shapeMismatch dim x.length)

/-! ### FeedForward (src/example.py lines 23-99)

The repository's call sites use the default flags (`glu = False`,
`swish = False`, `relu_squared = False`, `post_act_ln = False`,
`no_bias = False`, `zero_init_output = False`), so the constructed network is
`Linear(dim, int(dim * mult)) → GELU → Dropout(dropout) → Linear(inner, dim_out)`;
that configuration is what the embedding translates. -/

/-- Parameters of a constructed `FeedForward` module. -/
structure FeedForwardP where
  dim : Nat
  innerDim : Nat
  dimOut : Nat
  W1 : List (List ℝ)
  b1 : List ℝ
  W2 : List (List ℝ)
  b2 : List ℝ
  dropoutP : ℚ

/-- `FeedForward.__init__(dim, dim_out, mult, ..., dropout, ...)`:
`inner_dim = int(dim * mult)` (Python `int` truncates the product) and
`dim_out = default(dim_out, dim)`.  The weight lists stand for the randomly
initialised `nn.Linear` parameters. -/
def FeedForward.make (dim : Nat) (dimOut : Option Nat) (mult : ℚ) (dropout : ℚ)
    (W1 : List (List ℝ)) (b1 : List ℝ) (W2 : List (List ℝ)) (b2 : List ℝ) :
    FeedForwardP :=
  { dim := dim
    innerDim := (mult * dim).floor.toNat
    dimOut := dimOut.getD dim
    W1 := W1, b1 := b1, W2 := W2, b2 := b2
    dropoutP := dropout }

/-- Well-formedness of the stored weights: exactly the shapes
`nn.Linear(dim, inner_dim)` and `nn.Linear(inner_dim, dim_out)` allocate. -/
def FeedForwardP.Wf (p : FeedForwardP) : Prop :=
  p.W1.length = p.innerDim ∧ p.b1.length = p.innerDim ∧
    (∀ r ∈ p.W1, r.length = p.dim) ∧
    p.W2.length = p.dimOut ∧ p.b2.length = p.dimOut ∧
    (∀ r ∈ p.W2, r.length = p.innerDim)

/-- `FeedForward.forward`: `self.ff(x)`, i.e. first linear, GELU, dropout,
second linear. -/
noncomputable def FeedForward.forward (p : FeedForwardP) (x : List ℝ) :
    Except PyErr (List ℝ) := do
  let h ← linearC p.dim p.W1 p.b1 x
  let h2 := dropoutL p.dropoutP (h.map gelu)
  linearC p.innerDim p.W2 p.b2 h2

/-! ### RMSNorm (src/example.py lines 110-119) -/

/-- `RMSNorm`'s divisor: `torch.norm(x, dim=-1) * dim ** -0.5`, clamped below
by `eps` — `clamp(min=eps)` is `max · eps`. -/
noncomputable def RMSNorm.divisor (dim : Nat) (eps : ℝ) (x : List ℝ) : ℝ :=
  max (Real.sqrt ((x.map (fun t => t ^ 2)).sum) * (dim : ℝ) ^ (-(1 : ℝ) / 2)) eps

/-- Default `eps` of `RMSNorm.__init__` (`eps=1e-8`), the value every
`RMSNorm` in this repository is constructed with. -/
noncomputable def RMSNorm.epsDefault : ℝ := 1e-8

/-- `RMSNorm.forward`: `x / norm.clamp(min=eps) * self.g`, elementwise over
the last dimension against the learned gain `g`. -/
noncomputable def RMSNorm.forward (dim : Nat) (g : List ℝ) (eps : ℝ) (x : List ℝ) :
    List ℝ :=
  List.zipWith (fun xi gi => xi / RMSNorm.divisor dim eps x * gi) x g

/-! ### Rotary positional embedding (src/example.py lines 126-145) -/

/-- `RotaryEmbedding.__init__`: `inv_freq = 1 / 10000 ** (arange(0, dim, 2) / dim)`;
entry `j` corresponds to the arange value `2 * j`. -/
noncomputable def RotaryEmbedding.inv_freq (dim : Nat) : List ℝ :=
  (List.range ((dim + 1) / 2)).map
    (fun j => 1 / (10000 : ℝ) ^ (((2 * j : Nat) : ℝ) / (dim : ℝ)))

/-- One row of the rotary table: `freqs_i = i ⊗ inv_freq` concatenated with
itself (`torch.cat((freqs, freqs), dim=-1)`). -/
noncomputable def RotaryEmbedding.row (dim i : Nat) : List ℝ :=
  ((RotaryEmbedding.inv_freq dim).map (fun w => (i : ℝ) * w)) ++
    ((RotaryEmbedding.inv_freq dim).map (fun w => (i : ℝ) * w))

/-- `RotaryEmbedding.forward(max_seq_len)`: the table whose row `i` is the
rotary phase vector for sequence position `i`. -/
noncomputable def RotaryEmbedding.forward (dim n : Nat) : List (List ℝ) :=
  (List.range n).map (RotaryEmbedding.row dim)

/-- `rotate_half`: split the last dimension in two halves `x1, x2` and return
`cat(-x2, x1)`.  (The einops reshape `(j d), j=2` requires an even length;
theorems that depend on this carry that hypothesis.) -/
noncomputable def rotate_half (x : List ℝ) : List ℝ :=
  ((x.drop (x.length / 2)).map (fun t => -t)) ++ x.take (x.length / 2)

/-- `apply_rotary_pos_emb(pos, t) = t * pos.cos() + rotate_half(t) * pos.sin()`. -/
noncomputable def apply_rotary_pos_emb (pos t : List ℝ) : List ℝ :=
  List.zipWith (fun s t => s + t)
    (List.zipWith (fun u c => u * Real.cos c) t pos)
    (List.zipWith (fun u c => u * Real.sin c) (rotate_half t) pos)

/-! ### ParallelTransformerBlock (src/example.py lines 149-247) -/

/-- `torch.finfo(float32).max` as the exact real it denotes; `masked_fill`
uses its negation.  (Inputs are float32, torch's default dtype, as in the
module-level example.) -/
noncomputable def floatMax : ℝ := (2 - (2 : ℝ) ^ (-(23 : ℤ))) * (2 : ℝ) ^ (127 : Nat)

/-- `torch.ones((n, n)).triu(1)`: the strictly-upper-triangular boolean mask,
entry `(i, j)` true iff `j > i`. -/
def triuMask (n : Nat) : List (List Bool) :=
  (List.range n).map (fun i => (List.range n).map (fun j => decide (i < j)))

/-- `t[:n, :n]` on a 2-D tensor. -/
def sliceSq {α : Type} (M : List (List α)) (n : Nat) : List (List α) :=
  (M.take n).map (fun r => r.take n)

/-- `t.shape[-1]` of a (rectangular) 2-D tensor. -/
def tensorCols {α : Type} (M : List (List α)) : Nat := (M.headD []).length

/-- `ParallelTransformerBlock.get_mask(n)` acting on the cached `mask` buffer:
reuse `mask[:n, :n]` when a buffer with at least `n` columns exists, else
register a fresh strictly-upper-triangular mask.  Returns the mask used and the
buffer after the call. -/
def ParallelTransformerBlock.get_mask (buf : Option (List (List Bool))) (n : Nat) :
    List (List Bool) × Option (List (List Bool)) :=
  match buf with
  | some M => if n ≤ tensorCols M then (sliceSq M n, some M)
      else (triuMask n, some (triuMask n))
  | none => (triuMask n, some (triuMask n))

/-- `ParallelTransformerBlock.get_rotary_embedding(n)` acting on the cached
`pos_emb` buffer: reuse `pos_emb[:n]` when a buffer with at least `n` rows
exists, else register `self.rotary_emb(n)`. -/
noncomputable def ParallelTransformerBlock.get_rotary_embedding (dim : Nat)
    (buf : Option (List (List ℝ))) (n : Nat) :
    List (List ℝ) × Option (List (List ℝ)) :=
  match buf with
  | some P => if n ≤ P.length then (P.take n, some P)
      else (RotaryEmbedding.forward dim n, some (RotaryEmbedding.forward dim n))
  | none => (RotaryEmbedding.forward dim n, some (RotaryEmbedding.forward dim n))

/-- Learned parameters of a `ParallelTransformerBlock(dim, dim_head, heads,
ff_mult)`: the RMSNorm gain, the fused projection
`nn.Linear(dim, heads*dim_head + dim_head + dim_head + dim*ff_mult)`,
`attn_out = nn.Linear(heads*dim_head, dim)` and the second half of
`ff_out = GELU → nn.Linear(dim*ff_mult, dim)` (all with bias). -/
structure PTBP where
  dim : Nat
  dimHead : Nat
  heads : Nat
  ffMult : Nat
  normG : List ℝ
  Wfused : List (List ℝ)
  bFused : List ℝ
  Wattn : List (List ℝ)
  bAttn : List ℝ
  Wffo : List (List ℝ)
  bFfo : List ℝ

/-- `sum(self.fused_dims)`, the out-features of the fused projection. -/
def PTBP.fusedTotal (p : PTBP) : Nat :=
  p.heads * p.dimHead + p.dimHead + p.dimHead + p.dim * p.ffMult

/-- `self.scale = dim_head ** -0.5`. -/
noncomputable def PTBP.scale (p : PTBP) : ℝ := (p.dimHead : ℝ) ^ (-(1 : ℝ) / 2)

/-- `x = self.norm(x)`: RMSNorm applied to each position vector. -/
noncomputable def ParallelTransformerBlock.normed (p : PTBP) (x : List (List ℝ)) :
    List (List ℝ) :=
  x.map (RMSNorm.forward p.dim p.normG RMSNorm.epsDefault)

/-- `self.fused_attn_ff_proj(x)` applied to the normed input. -/
noncomputable def ParallelTransformerBlock.fusedOut (p : PTBP) (x : List (List ℝ)) :
    List (List ℝ) :=
  (ParallelTransformerBlock.normed p x).map (fun r => linearL p.Wfused p.bFused r)

/-- `q` of `split(self.fused_dims, dim=-1)`: the first `heads * dim_head`
features. -/
noncomputable def ParallelTransformerBlock.qFlat (p : PTBP) (x : List (List ℝ)) :
    List (List ℝ) :=
  (ParallelTransformerBlock.fusedOut p x).map (fun r => r.take (p.heads * p.dimHead))

/-- `k` of the split: the next `dim_head` features (one key shared by all
heads). -/
noncomputable def ParallelTransformerBlock.kPart (p : PTBP) (x : List (List ℝ)) :
    List (List ℝ) :=
  (ParallelTransformerBlock.fusedOut p x).map
    (fun r => (r.drop (p.heads * p.dimHead)).take p.dimHead)

/-- `v` of the split: the next `dim_head` features (one value shared by all
heads). -/
noncomputable def ParallelTransformerBlock.vPart (p : PTBP) (x : List (List ℝ)) :
    List (List ℝ) :=
  (ParallelTransformerBlock.fusedOut p x).map
    (fun r => (r.drop (p.heads * p.dimHead + p.dimHead)).take p.dimHead)

/-- `ff` of the split: the remaining `dim * ff_mult` features. -/
noncomputable def ParallelTransformerBlock.ffPart (p : PTBP) (x : List (List ℝ)) :
    List (List ℝ) :=
  (ParallelTransformerBlock.fusedOut p x).map
    (fun r => r.drop (p.heads * p.dimHead + p.dimHead + p.dimHead))

/-- Head `hh` of `rearrange(q, "b n (h d) -> b h n d")`: features
`[hh*dim_head, (hh+1)*dim_head)` of each position's `q`. -/
noncomputable def ParallelTransformerBlock.qHead (p : PTBP) (x : List (List ℝ))
    (hh : Nat) : List (List ℝ) :=
  (ParallelTransformerBlock.qFlat p x).map
    (fun r => (r.drop (hh * p.dimHead)).take p.dimHead)

/-- Queries of head `hh` after `apply_rotary_pos_emb` (positions broadcast
over heads) and the `q = q * self.scale` step. -/
noncomputable def ParallelTransformerBlock.qRotScaled (p : PTBP)
    (pos : List (List ℝ)) (x : List (List ℝ)) (hh : Nat) : List (List ℝ) :=
  (List.zipWith apply_rotary_pos_emb pos (ParallelTransformerBlock.qHead p x hh)).map
    (fun r => r.map (fun t => t * p.scale))

/-- The shared key after `apply_rotary_pos_emb`. -/
noncomputable def ParallelTransformerBlock.kRot (p : PTBP) (pos : List (List ℝ))
    (x : List (List ℝ)) : List (List ℝ) :=
  List.zipWith apply_rotary_pos_emb pos (ParallelTransformerBlock.kPart p x)

/-- `sim = einsum("b h i d, b j d -> b h i j", q, k)` for head `hh`: row `i`,
column `j` is the rotary-embedded scaled query at position `i` dotted with the
rotary-embedded key at position `j`. -/
noncomputable def ParallelTransformerBlock.sim (p : PTBP) (pos : List (List ℝ))
    (x : List (List ℝ)) (hh : Nat) : List (List ℝ) :=
  (ParallelTransformerBlock.qRotScaled p pos x hh).map
    (fun qi => (ParallelTransformerBlock.kRot p pos x).map (fun kj => dotL qi kj))

/-- `sim.masked_fill(causal_mask, -torch.finfo(sim.dtype).max)`. -/
noncomputable def ParallelTransformerBlock.maskedSim (p : PTBP)
    (pos : List (List ℝ)) (mask : List (List Bool)) (x : List (List ℝ))
    (hh : Nat) : List (List ℝ) :=
  List.zipWith
    (fun srow mrow => List.zipWith (fun s m => if m then -floatMax else s) srow mrow)
    (ParallelTransformerBlock.sim p pos x hh) mask

/-- `softmax(dim=-1)` of one row. -/
noncomputable def softmaxRow (r : List ℝ) : List ℝ :=
  r.map (fun s => Real.exp s / (r.map Real.exp).sum)

/-- `attn = sim.softmax(dim=-1)` for head `hh`. -/
noncomputable def ParallelTransformerBlock.attn (p : PTBP) (pos : List (List ℝ))
    (mask : List (List Bool)) (x : List (List ℝ)) (hh : Nat) : List (List ℝ) :=
  (ParallelTransformerBlock.maskedSim p pos mask x hh).map softmaxRow

/-- Sum of a list of feature vectors (zero vector of width `d` when empty). -/
noncomputable def vecSum (d : Nat) (l : List (List ℝ)) : List ℝ :=
  l.foldr (fun u acc => List.zipWith (fun s t => s + t) u acc) (List.replicate d 0)

/-- `out = einsum("b h i j, b j d -> b h i d", attn, v)` for head `hh`. -/
noncomputable def ParallelTransformerBlock.headOut (p : PTBP) (pos : List (List ℝ))
    (mask : List (List Bool)) (x : List (List ℝ)) (hh : Nat) : List (List ℝ) :=
  (ParallelTransformerBlock.attn p pos mask x hh).map
    (fun arow => vecSum p.dimHead
      (List.zipWith (fun a vj => vj.map (fun t => a * t)) arow
        (ParallelTransformerBlock.vPart p x)))

/-- `rearrange(out, "b h n d -> b n (h d)")`: position `i`'s vector is the
concatenation over heads of head `hh`'s output at `i`. -/
noncomputable def ParallelTransformerBlock.merged (p : PTBP) (pos : List (List ℝ))
    (mask : List (List Bool)) (x : List (List ℝ)) : List (List ℝ) :=
  (List.range x.length).map
    (fun i => ((List.range p.heads).map
      (fun hh => (ParallelTransformerBlock.headOut p pos mask x hh).getD i [])).flatten)

/-- `self.ff_out(ff)`: GELU then `nn.Linear(dim * ff_mult, dim)`. -/
noncomputable def ParallelTransformerBlock.ffBranch (p : PTBP) (x : List (List ℝ)) :
    List (List ℝ) :=
  (ParallelTransformerBlock.ffPart p x).map
    (fun r => linearL p.Wffo p.bFfo (r.map gelu))

/-- `return self.attn_out(out) + self.ff_out(ff)`, given the mask and rotary
positions the two cache getters produced. -/
noncomputable def ParallelTransformerBlock.core (p : PTBP) (pos : List (List ℝ))
    (mask : List (List Bool)) (x : List (List ℝ)) : List (List ℝ) :=
  List.zipWith (fun a b => List.zipWith (fun s t => s + t) a b)
    ((ParallelTransformerBlock.merged p pos mask x).map
      (fun r => linearL p.Wattn p.bAttn r))
    (ParallelTransformerBlock.ffBranch p x)

/-- The forward computation with freshly computed rotary table and causal
mask — the mathematical function the block denotes. -/
noncomputable def ParallelTransformerBlock.pureForward (p : PTBP)
    (x : List (List ℝ)) : List (List ℝ) :=
  ParallelTransformerBlock.core p (RotaryEmbedding.forward p.dimHead x.length)
    (triuMask x.length) x

/-- Mutable state of a `ParallelTransformerBlock` module: its learned
parameters and the two non-persistent buffers `mask` and `pos_emb` (the only
attributes `forward` ever assigns, via `register_buffer` in the two getters). -/
structure PTBState where
  params : PTBP
  maskBuf : Option (List (List Bool))
  posBuf : Option (List (List ℝ))

/-- `ParallelTransformerBlock.forward` as a state transformer: fetch the
rotary embedding and causal mask through their caches (mutating the buffers)
and run the attention/feed-forward computation. -/
noncomputable def ParallelTransformerBlock.forwardSt (s : PTBState)
    (x : List (List ℝ)) : PTBState × List (List ℝ) :=
  let pr := ParallelTransformerBlock.get_rotary_embedding s.params.dimHead
    s.posBuf x.length
  let mr := ParallelTransformerBlock.get_mask s.maskBuf x.length
  (⟨s.params, mr.2, pr.2⟩, ParallelTransformerBlock.core s.params pr.1 mr.1 x)

/-- Cache invariant: a buffer, when present, holds exactly what a previous
call's fresh computation registered. -/
def PTBState.Inv (s : PTBState) : Prop :=
  (s.maskBuf = none ∨ ∃ m, s.maskBuf = some (triuMask m)) ∧
    (s.posBuf = none ∨ ∃ m, s.posBuf = some (RotaryEmbedding.forward s.params.dimHead m))

/-! ### Transformer (src/example.py lines 253-277) -/

/-- A module held by the `nn.ModuleList`: the loop body constructs a
`FeedForward` and a `ParallelTransformerBlock` per iteration. -/
inductive NNModule where
  | ffM (p : FeedForwardP)
  | ptbM (p : PTBP)

/-- `nn.ModuleList.append`, whose signature takes a single module; calling it
with a different number of positional arguments is a Python `TypeError`.
`args` is the tuple of positional arguments of the call. -/
def moduleListAppend (l : List NNModule) (args : List NNModule) :
    Except PyErr (List NNModule) :=
  if args.length = 1 then .ok (l ++ args) else .error .typeError

/-- `Transformer.__init__`'s loop: starting from `nn.ModuleList([])`, each of
the `depth` iterations calls `self.layers.append(FeedForward(dim, dim, dropout),
ParallelTransformerBlock(dim, dim_head, heads, ff_mult))` — a single call with
two positional arguments.  `mods i` is the pair of freshly constructed modules
of iteration `i` (their randomly initialised parameters are irrelevant to the
call's fate, so they are parameters here). -/
def Transformer.init_layers (depth : Nat) (mods : Nat → List NNModule) :
    Except PyErr (List NNModule) :=
  (List.range depth).foldlM (fun acc i => moduleListAppend acc (mods i)) []

/-- `Transformer.forward`: `for block in self.layers: x = block(x) + x` with
the blocks' denotations given as functions (elementwise residual addition on
each position vector). -/
noncomputable def Transformer.forward (layers : List (List (List ℝ) → List (List ℝ)))
    (x : List (List ℝ)) : List (List ℝ) :=
  layers.foldl
    (fun y block => List.zipWith (fun a b => List.zipWith (fun s t => s + t) a b)
      (block y) y) x

/-! ### ALRBlock (src/example.py lines 282-322) -/

/-- The randomly initialised weights an `ALRBlock` constructor allocates. -/
structure ALRWeights where
  ffnW1 : List (List ℝ)
  ffnb1 : List ℝ
  ffnW2 : List (List ℝ)
  ffnb2 : List ℝ
  ffW1 : List (List ℝ)
  ffb1 : List ℝ
  ffW2 : List (List ℝ)
  ffb2 : List ℝ
  Wq : List (List ℝ)
  bq : List ℝ
  Wk : List (List ℝ)
  bk : List ℝ
  Wv : List (List ℝ)
  bv : List ℝ
  normG : List ℝ
  normB : List ℝ

/-- Parameters of a constructed `ALRBlock`. -/
structure ALRBlockP where
  dim : Nat
  hiddenDim : Nat
  dropout : ℚ
  ffn : FeedForwardP
  ff : FeedForwardP
  w : ALRWeights

/-- `ALRBlock.__init__(dim, hidden_dim, dropout)`: note both feed-forwards
are built as `FeedForward(dim, hidden_dim, dropout)`, whose third positional
parameter is `mult` — the dropout probability lands in `mult` and
`FeedForward`'s own `dropout` stays at its default `0.0`. -/
def ALRBlock.make (dim hiddenDim : Nat) (dropout : ℚ) (w : ALRWeights) : ALRBlockP :=
  { dim := dim
    hiddenDim := hiddenDim
    dropout := dropout
    ffn := FeedForward.make dim (some hiddenDim) dropout 0 w.ffnW1 w.ffnb1 w.ffnW2 w.ffnb2
    ff := FeedForward.make dim (some hiddenDim) dropout 0 w.ffW1 w.ffb1 w.ffW2 w.ffb2
    w := w }

/-- Shapes the `ALRBlock` constructor allocates: the three projections are
`nn.Linear(dim, dim)`, the norm is `nn.LayerNorm(dim)`, and the two
feed-forward weight sets match their constructed dimensions. -/
def ALRBlockP.Wf (p : ALRBlockP) : Prop :=
  p.ffn.Wf ∧ p.ff.Wf ∧
    p.w.Wq.length = p.dim ∧ p.w.bq.length = p.dim ∧ (∀ r ∈ p.w.Wq, r.length = p.dim) ∧
    p.w.Wk.length = p.dim ∧ p.w.bk.length = p.dim ∧ (∀ r ∈ p.w.Wk, r.length = p.dim) ∧
    p.w.Wv.length = p.dim ∧ p.w.bv.length = p.dim ∧ (∀ r ∈ p.w.Wv, r.length = p.dim) ∧
    p.w.normG.length = p.dim ∧ p.w.normB.length = p.dim

/-- `ALRBlock.forward` on one position vector: q/k/v projections, `torch.cat`
along the last dimension, first feed-forward, layer norm plus residual,
second feed-forward, layer norm, second residual. -/
noncomputable def ALRBlock.forward (p : ALRBlockP) (x : List ℝ) :
    Except PyErr (List ℝ) := do
  let q ← linearC p.dim p.w.Wq p.w.bq x
  let k ← linearC p.dim p.w.Wk p.w.bk x
  let v ← linearC p.dim p.w.Wv p.w.bv x
  let qkv := q ++ k ++ v
  let ffn ← FeedForward.forward p.ffn qkv
  let nffn ← layerNormC p.dim p.w.normG p.w.normB ffn
  let normFfn ← addC nffn x
  let ff ← FeedForward.forward p.ff normFfn
  let ffNorm ← layerNormC p.dim p.w.normG p.w.normB ff
  addC ffNorm x

/-- `ALRBlock` applied to a 3-D input tensor (batch × sequence × feature),
the shape of the module-level example. -/
noncomputable def ALRBlock.forward3 (p : ALRBlockP) (x : List (List (List ℝ))) :
    Except PyErr (List (List (List ℝ))) :=
  x.mapM (fun m => m.mapM (ALRBlock.forward p))

/-- Shape of a 3-D tensor as (batch, sequence, feature) — rectangular. -/
def shape3 (x : List (List (List ℝ))) (b n d : Nat) : Prop :=
  x.length = b ∧ ∀ m ∈ x, m.length = n ∧ ∀ v ∈ m, v.length = d

/-! ### Concrete instances used by witnesses and counterexamples -/

/-- A tiny `ParallelTransformerBlock(dim=1, dim_head=2, heads=1, ff_mult=1)`
with all weights zero and gain one (`sum(fused_dims) = 7`). -/
noncomputable def ptb0 : PTBP :=
  { dim := 1, dimHead := 2, heads := 1, ffMult := 1
    normG := [1]
    Wfused := List.replicate 7 [0], bFused := List.replicate 7 0
    Wattn := [[0, 0]], bAttn := [0]
    Wffo := [[0]], bFfo := [0] }

/-- A two-position, one-feature input for `ptb0`. -/
noncomputable def x0 : List (List ℝ) := [[0], [0]]

/-- A well-formed `FeedForward` with `dim = innerDim = dimOut = 1` and zero
weights. -/
noncomputable def ff0 : FeedForwardP :=
  { dim := 1, innerDim := 1, dimOut := 1
    W1 := [[0]], b1 := [0], W2 := [[0]], b2 := [0], dropoutP := 0 }

/-- Zero weights of the shapes `ALRBlock(512, 2048, 0.1)` allocates. -/
noncomputable def alrW512 : ALRWeights :=
  { ffnW1 := List.replicate 51 (List.replicate 512 0), ffnb1 := List.replicate 51 0
    ffnW2 := List.replicate 2048 (List.replicate 51 0), ffnb2 := List.replicate 2048 0
    ffW1 := List.replicate 51 (List.replicate 512 0), ffb1 := List.replicate 51 0
    ffW2 := List.replicate 2048 (List.replicate 51 0), ffb2 := List.replicate 2048 0
    Wq := List.replicate 512 (List.replicate 512 0), bq := List.replicate 512 0
    Wk := List.replicate 512 (List.replicate 512 0), bk := List.replicate 512 0
    Wv := List.replicate 512 (List.replicate 512 0), bv := List.replicate 512 0
    normG := List.replicate 512 0, normB := List.replicate 512 0 }

/-- The module-level example input `torch.randn(1, 1024, 512)`, taken at the
zero tensor (its values are irrelevant to the shape fault). -/
noncomputable def xExample : List (List (List ℝ)) :=
  [List.replicate 1024 (List.replicate 512 0)]

/-- Zero weights of the shapes `ALRBlock(1, 1, 0)` allocates
(`inner_dim = int(1 * 0) = 0`). -/
noncomputable def alrW1 : ALRWeights :=
  { ffnW1 := [], ffnb1 := [], ffnW2 := [[]], ffnb2 := [0]
    ffW1 := [], ffb1 := [], ffW2 := [[]], ffb2 := [0]
    Wq := [[0]], bq := [0], Wk := [[0]], bk := [0], Wv := [[0]], bv := [0]
    normG := [0], normB := [0] }

/-! ### Generic list lemmas -/

/-- Indexing with a default through `map`, under the bound. -/
theorem getD_map_of_lt {α β : Type} (f : α → β) (l : List α) (i : Nat) (d : β)
    (d0 : α) (h : i < l.length) : (l.map f).getD i d = f (l.getD i d0) := by
  rw [List.getD_eq_getElem?_getD, List.getD_eq_getElem?_getD, List.getElem?_map,
    List.getElem?_eq_getElem h]
  rfl

/-- Indexing with a default through `zipWith`, under both bounds. -/
theorem getD_zipWith_of_lt {α β γ : Type} (f : α → β → γ) (as : List α)
    (bs : List β) (i : Nat) (d : γ) (da : α) (db : β) (ha : i < as.length)
    (hb : i < bs.length) :
    (List.zipWith f as bs).getD i d = f (as.getD i da) (bs.getD i db) := by
  rw [List.getD_eq_getElem?_getD, List.getD_eq_getElem?_getD,
    List.getD_eq_getElem?_getD, List.getElem?_zipWith,
    List.getElem?_eq_getElem ha, List.getElem?_eq_getElem hb]
  rfl

/-- Indexing with a default into `range`, under the bound. -/
theorem getD_range_of_lt (n i : Nat) (d : Nat) (h : i < n) :
    (List.range n).getD i d = i := by
  rw [List.getD_eq_getElem?_getD, List.getElem?_range h]
  rfl

/-- An element read with a default under the bound is a member. -/
theorem getD_mem_of_lt {α : Type} (l : List α) (i : Nat) (d : α)
    (h : i < l.length) : l.getD i d ∈ l := by
  rw [List.getD_eq_getElem?_getD, List.getElem?_eq_getElem h]
  exact List.getElem_mem h

/-- `zipWith` against a replicated constant of matching length is a `map`. -/
theorem zipWith_replicate_right_eq_map {α β γ : Type} (f : α → β → γ) (t : List α)
    (c : β) (L : Nat) (h : L = t.length) :
    List.zipWith f t (List.replicate L c) = t.map (fun u => f u c) := by
  subst h
  induction t with
  | nil => rfl
  | cons a t ih => simp [List.replicate_succ, ih]

/-! ### Cache lemmas -/

/-- A registered mask buffer of size `m` has `m` columns. -/
theorem triuMask_cols (m : Nat) : tensorCols (triuMask m) = m := by
  cases m with
  | zero => rfl
  | succ k => simp [tensorCols, triuMask, List.range_succ_eq_map]

/-- Slicing a registered strictly-upper-triangular mask of size `m ≥ n` gives
exactly the size-`n` mask. -/
theorem sliceSq_triuMask {n m : Nat} (h : n ≤ m) :
    sliceSq (triuMask m) n = triuMask n := by
  simp [sliceSq, triuMask, List.map_map, ← List.map_take, List.take_range,
    Nat.min_eq_left h, Function.comp]

/-- The rotary table for `n` positions has `n` rows. -/
theorem rotForward_length (d n : Nat) : (RotaryEmbedding.forward d n).length = n := by
  simp [RotaryEmbedding.forward]

/-- The first `n` rows of a registered rotary table of `m ≥ n` rows are
exactly the fresh table for `n` positions. -/
theorem rotForward_take {d n m : Nat} (h : n ≤ m) :
    (RotaryEmbedding.forward d m).take n = RotaryEmbedding.forward d n := by
  simp [RotaryEmbedding.forward, ← List.map_take, List.take_range, Nat.min_eq_left h]

/-- Under the cache invariant, `get_mask` returns the strictly-upper-triangular
mask of size `n` whether or not a buffer exists. -/
theorem get_mask_fst_of_inv (buf : Option (List (List Bool))) (n : Nat)
    (h : buf = none ∨ ∃ m, buf = some (triuMask m)) :
    (ParallelTransformerBlock.get_mask buf n).1 = triuMask n := by
  rcases h with h | ⟨m, h⟩ <;> subst h
  · rfl
  · rw [ParallelTransformerBlock.get_mask]
    rw [triuMask_cols]
    by_cases hnm : n ≤ m
    · simp [hnm, sliceSq_triuMask hnm]
    · simp [hnm]

/-- `get_mask` re-establishes the cache invariant for the mask buffer. -/
theorem get_mask_snd_of_inv (buf : Option (List (List Bool))) (n : Nat)
    (h : buf = none ∨ ∃ m, buf = some (triuMask m)) :
    ∃ m, (ParallelTransformerBlock.get_mask buf n).2 = some (triuMask m) := by
  rcases h with h | ⟨m, h⟩ <;> subst h
  · exact ⟨n, rfl⟩
  · rw [ParallelTransformerBlock.get_mask]
    by_cases hnm : n ≤ tensorCols (triuMask m)
    · exact ⟨m, by simp [hnm]⟩
    · exact ⟨n, by simp [hnm]⟩

/-- Under the cache invariant, `get_rotary_embedding` returns the fresh rotary
table for `n` positions whether or not a buffer exists. -/
theorem get_rotary_fst_of_inv (d : Nat) (buf : Option (List (List ℝ))) (n : Nat)
    (h : buf = none ∨ ∃ m, buf = some (RotaryEmbedding.forward d m)) :
    (ParallelTransformerBlock.get_rotary_embedding d buf n).1 =
      RotaryEmbedding.forward d n := by
  rcases h with h | ⟨m, h⟩ <;> subst h
  · rfl
  · rw [ParallelTransformerBlock.get_rotary_embedding]
    rw [rotForward_length]
    by_cases hnm : n ≤ m
    · simp [hnm, rotForward_take hnm]
    · simp [hnm]

/-- `get_rotary_embedding` re-establishes the cache invariant for the
`pos_emb` buffer. -/
theorem get_rotary_snd_of_inv (d : Nat) (buf : Option (List (List ℝ))) (n : Nat)
    (h : buf = none ∨ ∃ m, buf = some (RotaryEmbedding.forward d m)) :
    ∃ m, (ParallelTransformerBlock.get_rotary_embedding d buf n).2 =
      some (RotaryEmbedding.forward d m) := by
  rcases h with h | ⟨m, h⟩ <;> subst h
  · exact ⟨n, rfl⟩
  · rw [ParallelTransformerBlock.get_rotary_embedding]
    by_cases hnm : n ≤ (RotaryEmbedding.forward d m).length
    · exact ⟨m, by simp [hnm]⟩
    · exact ⟨n, by simp [hnm]⟩

/-- C8: caching never changes results — under the reachable-buffer invariant,
`get_mask(n)` returns the strictly-upper-triangular n-by-n boolean mask (ones
strictly above the diagonal) and `get_rotary_embedding(n)` returns the first
`n` rows of the rotary table, whether or not a cached buffer of size ≥ n
exists; and a cached slice of size `m ≥ n` equals the fresh computation. -/
theorem caching_preserves_results (d n : Nat) (mbuf : Option (List (List Bool)))
    (pbuf : Option (List (List ℝ)))
    (hm : mbuf = none ∨ ∃ m, mbuf = some (triuMask m))
    (hp : pbuf = none ∨ ∃ m, pbuf = some (RotaryEmbedding.forward d m)) :
    (ParallelTransformerBlock.get_mask mbuf n).1 = triuMask n ∧
    (∀ i j, i < n → j < n →
      ((ParallelTransformerBlock.get_mask mbuf n).1.getD i []).getD j false =
        decide (i < j)) ∧
    (ParallelTransformerBlock.get_rotary_embedding d pbuf n).1 =
      RotaryEmbedding.forward d n ∧
    (∀ m, n ≤ m → sliceSq (triuMask m) n = triuMask n) ∧
    (∀ m, n ≤ m →
      (RotaryEmbedding.forward d m).take n = RotaryEmbedding.forward d n) := by
  refine ⟨get_mask_fst_of_inv mbuf n hm, ?_, get_rotary_fst_of_inv d pbuf n hp,
    fun m hnm => sliceSq_triuMask hnm, fun m hnm => rotForward_take hnm⟩
  intro i j hi hj
  rw [get_mask_fst_of_inv mbuf n hm, triuMask,
    getD_map_of_lt _ _ i _ 0 (by simpa using hi), getD_range_of_lt _ _ _ hi,
    getD_map_of_lt _ _ j _ 0 (by simpa using hj), getD_range_of_lt _ _ _ hj]

/-- Witness for C8 at a concrete cached state: buffers of size 3, query
size 2. -/
theorem caching_preserves_results_witness :
    (ParallelTransformerBlock.get_mask (some (triuMask 3)) 2).1 = triuMask 2 ∧
    (∀ i j, i < 2 → j < 2 →
      ((ParallelTransformerBlock.get_mask (some (triuMask 3)) 2).1.getD i
        []).getD j false = decide (i < j)) ∧
    (ParallelTransformerBlock.get_rotary_embedding 2
        (some (RotaryEmbedding.forward 2 3)) 2).1 = RotaryEmbedding.forward 2 2 ∧
    (∀ m, 2 ≤ m → sliceSq (triuMask m) 2 = triuMask 2) ∧
    (∀ m, 2 ≤ m →
      (RotaryEmbedding.forward 2 m).take 2 = RotaryEmbedding.forward 2 2) :=
  caching_preserves_results 2 2 (some (triuMask 3))
    (some (RotaryEmbedding.forward 2 3)) (Or.inr ⟨3, rfl⟩) (Or.inr ⟨3, rfl⟩)

/-- C6: the forward computation is stateless as a mathematical transformation —
`ParallelTransformerBlock.forward` (the only forward in the repository that
writes to its module, via the two `register_buffer` caches) never changes the
learned parameters, and under the reachable-buffer invariant its output is the
pure function `pureForward` of (parameters, input) alone: a second call on the
mutated module returns the same output. -/
theorem forward_is_stateless (s : PTBState) (x : List (List ℝ)) :
    (ParallelTransformerBlock.forwardSt s x).1.params = s.params ∧
    (PTBState.Inv s →
      (ParallelTransformerBlock.forwardSt s x).2 =
        ParallelTransformerBlock.pureForward s.params x ∧
      PTBState.Inv (ParallelTransformerBlock.forwardSt s x).1 ∧
      (ParallelTransformerBlock.forwardSt
          (ParallelTransformerBlock.forwardSt s x).1 x).2 =
        (ParallelTransformerBlock.forwardSt s x).2) := by
  refine ⟨rfl, fun hinv => ?_⟩
  obtain ⟨hm, hp⟩ := hinv
  have hout : (ParallelTransformerBlock.forwardSt s x).2 =
      ParallelTransformerBlock.pureForward s.params x := by
    show ParallelTransformerBlock.core s.params
        (ParallelTransformerBlock.get_rotary_embedding s.params.dimHead s.posBuf
          x.length).1
        (ParallelTransformerBlock.get_mask s.maskBuf x.length).1 x = _
    rw [get_rotary_fst_of_inv _ _ _ hp, get_mask_fst_of_inv _ _ hm]
    rfl
  have hinv' : PTBState.Inv (ParallelTransformerBlock.forwardSt s x).1 := by
    constructor
    · exact Or.inr (get_mask_snd_of_inv s.maskBuf x.length hm)
    · exact Or.inr (get_rotary_snd_of_inv s.params.dimHead s.posBuf x.length hp)
  refine ⟨hout, hinv', ?_⟩
  have hout' : (ParallelTransformerBlock.forwardSt
      (ParallelTransformerBlock.forwardSt s x).1 x).2 =
      ParallelTransformerBlock.pureForward
        (ParallelTransformerBlock.forwardSt s x).1.params x := by
    obtain ⟨hm', hp'⟩ := hinv'
    show ParallelTransformerBlock.core _ _ _ x = _
    rw [get_rotary_fst_of_inv _ _ _ hp', get_mask_fst_of_inv _ _ hm']
    rfl
  rw [hout', hout]
  rfl

/-- Witness for C6 at a freshly constructed block (empty caches) on a
concrete input. -/
theorem forward_is_stateless_witness :
    (ParallelTransformerBlock.forwardSt ⟨ptb0, none, none⟩ x0).2 =
      ParallelTransformerBlock.pureForward ptb0 x0 ∧
    PTBState.Inv (ParallelTransformerBlock.forwardSt ⟨ptb0, none, none⟩ x0).1 ∧
    (ParallelTransformerBlock.forwardSt
        (ParallelTransformerBlock.forwardSt ⟨ptb0, none, none⟩ x0).1 x0).2 =
      (ParallelTransformerBlock.forwardSt ⟨ptb0, none, none⟩ x0).2 :=
  (forward_is_stateless ⟨ptb0, none, none⟩ x0).2 ⟨Or.inl rfl, Or.inl rfl⟩

/-- C10: `RMSNorm.forward` never divides by zero — for every input, including
the all-zero vector, the divisor `norm(x) * dim ** -0.5` is clamped below by
`eps = 1e-8` before the division, so every quotient in the output has a
strictly positive denominator. -/
theorem rmsnorm_divisor_positive (dim : Nat) (g : List ℝ) (x : List ℝ) :
    (1e-8 : ℝ) ≤ RMSNorm.divisor dim RMSNorm.epsDefault x ∧
    0 < RMSNorm.divisor dim RMSNorm.epsDefault x ∧
    RMSNorm.forward dim g RMSNorm.epsDefault x =
      List.zipWith
        (fun xi gi => xi / RMSNorm.divisor dim RMSNorm.epsDefault x * gi) x g := by
  have heps : RMSNorm.epsDefault = (1e-8 : ℝ) := rfl
  have hle : (1e-8 : ℝ) ≤ RMSNorm.divisor dim RMSNorm.epsDefault x := by
    rw [RMSNorm.divisor, heps]
    exact le_max_right _ _
  exact ⟨hle, lt_of_lt_of_le (by norm_num) hle, rfl⟩

/-- Length is preserved by `rotate_half`. -/
theorem rotate_half_length (x : List ℝ) : (rotate_half x).length = x.length := by
  simp [rotate_half]
  omega

/-- C9: applying the rotary embedding at position 0 is the identity — for
every vector of even length, row 0 of the rotary table has all phases zero,
so `cos` is one and `sin` is zero and `apply_rotary_pos_emb` returns the
input unchanged. -/
theorem rotary_at_position_zero_identity (t : List ℝ) (h : t.length % 2 = 0) :
    apply_rotary_pos_emb (RotaryEmbedding.row t.length 0) t = t := by
  have hrow : RotaryEmbedding.row t.length 0 = List.replicate t.length 0 := by
    rw [RotaryEmbedding.row]
    simp only [Nat.cast_zero, zero_mul, List.map_const', ← List.replicate_add,
      RotaryEmbedding.inv_freq, List.length_map, List.length_range]
    congr 1
    omega
  rw [hrow, apply_rotary_pos_emb,
    zipWith_replicate_right_eq_map _ t (0 : ℝ) t.length rfl,
    zipWith_replicate_right_eq_map _ (rotate_half t) (0 : ℝ) t.length
      (rotate_half_length t).symm]
  simp only [Real.cos_zero, Real.sin_zero, mul_one, mul_zero, List.map_const',
    rotate_half_length, List.map_id']
  rw [zipWith_replicate_right_eq_map _ t (0 : ℝ) t.length rfl]
  simp

/-- Witness for C9 at the concrete even-length vector `[1, 2]`. -/
theorem rotary_at_position_zero_identity_witness :
    ([(1 : ℝ), 2].length % 2 = 0) ∧
    apply_rotary_pos_emb (RotaryEmbedding.row [(1 : ℝ), 2].length 0) [(1 : ℝ), 2] =
      [(1 : ℝ), 2] :=
  ⟨rfl, rotary_at_position_zero_identity [(1 : ℝ), 2] rfl⟩

/-- C1: `Transformer.__init__` cannot build its residual stack — for every
depth ≥ 1 the loop's first iteration calls `nn.ModuleList.append` with two
positional arguments (`append` takes one module), so construction raises a
`TypeError` instead of storing any layer. -/
theorem transformer_init_raises (depth : Nat) (mods : Nat → List NNModule)
    (h2 : ∀ i, (mods i).length = 2) (hd : 1 ≤ depth) :
    Transformer.init_layers depth mods = .error .typeError := by
  obtain ⟨k, rfl⟩ : ∃ k, depth = k + 1 := ⟨depth - 1, by omega⟩
  rw [Transformer.init_layers, List.range_succ_eq_map, List.foldlM_cons]
  have hz : moduleListAppend [] (mods 0) = .error .typeError := by
    rw [moduleListAppend, h2 0]
    rfl
  rw [hz]
  rfl

/-- Witness for C1 at depth 1, with the two modules of the loop body built
from concrete parameters. -/
theorem transformer_init_raises_witness :
    (∀ _i : Nat, ([NNModule.ffM ff0, NNModule.ptbM ptb0] : List NNModule).length = 2) ∧
    Transformer.init_layers 1 (fun _ => [NNModule.ffM ff0, NNModule.ptbM ptb0]) =
      .error .typeError :=
  ⟨fun _ => rfl,
    transformer_init_raises 1 (fun _ => [NNModule.ffM ff0, NNModule.ptbM ptb0])
      (fun _ => rfl) (Nat.le_refl 1)⟩

/-! ### Error propagation through the checked library operations -/

/-- Bind on a successful `Except` computation. -/
theorem exceptOk_bind {α β : Type} (a : α) (f : α → Except PyErr β) :
    (Except.ok a >>= f) = f a := rfl

/-- Bind on a failed `Except` computation. -/
theorem exceptError_bind {α β : Type} (e : PyErr) (f : α → Except PyErr β) :
    ((Except.error e : Except PyErr α) >>= f) = Except.error e := rfl

/-- A failing bind fails in its first stage or in its continuation. -/
theorem exceptBind_eq_error {α β : Type} {ma : Except PyErr α}
    {f : α → Except PyErr β} {e : PyErr} (h : ma >>= f = .error e) :
    ma = .error e ∨ ∃ a, ma = .ok a ∧ f a = .error e := by
  cases ma with
  | error e2 =>
    rw [exceptError_bind] at h
    injection h with h
    exact Or.inl (by rw [h])
  | ok a =>
    rw [exceptOk_bind] at h
    exact Or.inr ⟨a, rfl, h⟩

/-- The only error `nn.Linear` raises is its shape check. -/
theorem linearC_eq_error {inF : Nat} {W : List (List ℝ)} {b x : List ℝ} {e : PyErr}
    (h : linearC inF W b x = .error e) : e = .shapeMismatch inF x.length := by
  rw [linearC] at h
  by_cases hc : x.length = inF
  · rw [if_pos hc] at h
    exact Except.noConfusion h
  · rw [if_neg hc] at h
    injection h with h
    exact h.symm

/-- The only error `nn.LayerNorm` raises is its shape check. -/
theorem layerNormC_eq_error {dim : Nat} {g b x : List ℝ} {e : PyErr}
    (h : layerNormC dim g b x = .error e) : e = .shapeMismatch dim x.length := by
  rw [layerNormC] at h
  by_cases hc : x.length = dim
  · rw [if_pos hc] at h
    exact Except.noConfusion h
  · rw [if_neg hc] at h
    injection h with h
    exact h.symm

/-- The only error elementwise addition raises is its shape check. -/
theorem addC_eq_error {a b : List ℝ} {e : PyErr} (h : addC a b = .error e) :
    e = .shapeMismatch a.length b.length := by
  rw [addC] at h
  by_cases hc : a.length = b.length
  · rw [if_pos hc] at h
    exact Except.noConfusion h
  · rw [if_neg hc] at h
    injection h with h
    exact h.symm

/-- Every error of `FeedForward.forward` is a library shape mismatch. -/
theorem ff_forward_eq_error {p : FeedForwardP} {x : List ℝ} {e : PyErr}
    (h : FeedForward.forward p x = .error e) : ∃ a c, e = .shapeMismatch a c := by
  rw [FeedForward.forward] at h
  rcases exceptBind_eq_error h with h1 | ⟨a, _, h2⟩
  · exact ⟨_, _, linearC_eq_error h1⟩
  · exact ⟨_, _, linearC_eq_error h2⟩

/-- Every error of `ALRBlock.forward` is a library shape mismatch. -/
theorem alr_forward_eq_error {p : ALRBlockP} {x : List ℝ} {e : PyErr}
    (h : ALRBlock.forward p x = .error e) : ∃ a c, e = .shapeMismatch a c := by
  rw [ALRBlock.forward] at h
  rcases exceptBind_eq_error h with h1 | ⟨q, _, h⟩
  · exact ⟨_, _, linearC_eq_error h1⟩
  rcases exceptBind_eq_error h with h1 | ⟨k, _, h⟩
  · exact ⟨_, _, linearC_eq_error h1⟩
  rcases exceptBind_eq_error h with h1 | ⟨v, _, h⟩
  · exact ⟨_, _, linearC_eq_error h1⟩
  rcases exceptBind_eq_error h with h1 | ⟨f1, _, h⟩
  · exact ff_forward_eq_error h1
  rcases exceptBind_eq_error h with h1 | ⟨n1, _, h⟩
  · exact ⟨_, _, layerNormC_eq_error h1⟩
  rcases exceptBind_eq_error h with h1 | ⟨s1, _, h⟩
  · exact ⟨_, _, addC_eq_error h1⟩
  rcases exceptBind_eq_error h with h1 | ⟨f2, _, h⟩
  · exact ff_forward_eq_error h1
  rcases exceptBind_eq_error h with h1 | ⟨n2, _, h⟩
  · exact ⟨_, _, layerNormC_eq_error h1⟩
  exact ⟨_, _, addC_eq_error h⟩

/-- With well-formed weights, `FeedForward.forward` succeeds exactly when the
input's last dimension matches `dim` — the library's shape check is the sole
failure condition, and the module adds no checks of its own. -/
theorem ff_forward_ok_iff (p : FeedForwardP) (x : List ℝ) (hw : p.Wf) :
    (∃ y, FeedForward.forward p x = .ok y) ↔ x.length = p.dim := by
  obtain ⟨h1, h2, _, _, _, _⟩ := hw
  constructor
  · rintro ⟨y, hy⟩
    by_contra hne
    rw [FeedForward.forward, linearC, if_neg hne] at hy
    have hcontra : (Except.error (PyErr.shapeMismatch p.dim x.length) :
        Except PyErr (List ℝ)) = .ok y := hy
    exact Except.noConfusion hcontra
  · intro hx
    have hfwd : FeedForward.forward p x =
        linearC p.innerDim p.W2 p.b2
          (dropoutL p.dropoutP ((linearL p.W1 p.b1 x).map gelu)) := by
      rw [FeedForward.forward, linearC, if_pos hx, exceptOk_bind]
    rw [hfwd, linearC,
      if_pos (by simp [dropoutL, linearL, h1, h2])]
    exact ⟨_, rfl⟩

/-- Any constructed `ALRBlock` fails its forward pass: the concatenated
`qkv` has last dimension `3 * dim` but `self.ffn` was built as
`FeedForward(dim, hidden_dim, dropout)`, whose first linear expects `dim`. -/
theorem alr_make_forward_raises_aux (dim hidden : Nat) (dr : ℚ) (w : ALRWeights)
    (x : List ℝ) (hw : (ALRBlock.make dim hidden dr w).Wf) (hd : 0 < dim)
    (hx : x.length = dim) :
    ALRBlock.forward (ALRBlock.make dim hidden dr w) x =
      .error (.shapeMismatch dim (3 * dim)) := by
  obtain ⟨_, _, hWq, hbq, _, hWk, hbk, _, hWv, hbv, _, _, _⟩ := hw
  simp only [ALRBlock.make, FeedForward.make] at hWq hbq hWk hbk hWv hbv
  rw [ALRBlock.forward]
  simp only [ALRBlock.make]
  rw [linearC, if_pos hx, exceptOk_bind]
  rw [linearC, if_pos hx, exceptOk_bind]
  rw [linearC, if_pos hx, exceptOk_bind]
  have hqkv : (linearL w.Wq w.bq x ++ linearL w.Wk w.bk x ++
      linearL w.Wv w.bv x).length = 3 * dim := by
    simp only [List.length_append, linearL, List.length_zipWith]
    rw [hWq, hbq, hWk, hbk, hWv, hbv]
    omega
  rw [FeedForward.forward]
  simp only [FeedForward.make]
  rw [linearC, hqkv, if_neg (by omega)]
  rfl

/-- C5: the `ALRBlock` forward never returns — on every input of the block's
feature dimension, the first feed-forward's shape check fails (it expects
width `dim`, the concatenation has width `3 * dim`), so the residual sum the
claim describes is never produced. -/
theorem alr_forward_always_raises (dim hidden : Nat) (dr : ℚ) (w : ALRWeights)
    (x : List ℝ) (hw : (ALRBlock.make dim hidden dr w).Wf) (hd : 0 < dim)
    (hx : x.length = dim) :
    ALRBlock.forward (ALRBlock.make dim hidden dr w) x =
      .error (.shapeMismatch dim (3 * dim)) :=
  alr_make_forward_raises_aux dim hidden dr w x hw hd hx

/-- Witness for C5 at `ALRBlock(1, 1, 0)` on the input `[0]`. -/
theorem alr_forward_always_raises_witness :
    (ALRBlock.make 1 1 0 alrW1).Wf ∧
    ALRBlock.forward (ALRBlock.make 1 1 0 alrW1) [(0 : ℝ)] =
      .error (.shapeMismatch 1 3) := by
  have hw : (ALRBlock.make 1 1 0 alrW1).Wf := by
    simp [ALRBlock.make, ALRBlockP.Wf, FeedForward.make, FeedForwardP.Wf, alrW1]
    decide
  exact ⟨hw, alr_forward_always_raises 1 1 0 alrW1 [0] hw (by omega) rfl⟩

/-- C2: the module-level example check does not pass — `ALRBlock(512, 2048,
0.1)` applied to a tensor of shape (1, 1024, 512) raises the tensor library's
shape mismatch (the concatenated qkv has last dimension 1536, the first
feed-forward's linear expects 512) instead of returning a tensor of the
input's shape. -/
theorem alr_example_raises (w : ALRWeights) (x : List (List (List ℝ)))
    (hw : (ALRBlock.make 512 2048 (1 / 10) w).Wf) (hx : shape3 x 1 1024 512) :
    ALRBlock.forward3 (ALRBlock.make 512 2048 (1 / 10) w) x =
      .error (.shapeMismatch 512 1536) := by
  obtain ⟨hx1, hx2⟩ := hx
  obtain ⟨m, rfl⟩ : ∃ m, x = [m] := by
    cases x with
    | nil => simp at hx1
    | cons m t =>
      cases t with
      | nil => exact ⟨m, rfl⟩
      | cons a b => simp at hx1
  obtain ⟨hm1, hm2⟩ := hx2 m (by simp)
  obtain ⟨v, rest, rfl⟩ : ∃ v rest, m = v :: rest := by
    cases m with
    | nil => simp at hm1
    | cons v rest => exact ⟨v, rest, rfl⟩
  have hv : v.length = 512 := hm2 v (by simp)
  have hfail : ALRBlock.forward (ALRBlock.make 512 2048 (1 / 10) w) v =
      .error (.shapeMismatch 512 1536) := by
    have h0 := alr_make_forward_raises_aux 512 2048 (1 / 10) w v hw (by omega) hv
    have h3 : (3 * 512 : Nat) = 1536 := by norm_num
    rw [h3] at h0
    exact h0
  rw [ALRBlock.forward3]
  simp only [List.mapM_cons, hfail, exceptError_bind]

/-- `int(512 * 0.1) = 51`: the inner dimension both feed-forwards of the
example `ALRBlock(512, 2048, 0.1)` are constructed with. -/
theorem floor_512_tenth : ((1 / 10 : ℚ) * ((512 : Nat) : ℚ)).floor.toNat = 51 := by
  have h : ((1 / 10 : ℚ) * ((512 : Nat) : ℚ)).floor = (51 : ℤ) := by
    show ⌊(1 / 10 : ℚ) * ((512 : Nat) : ℚ)⌋ = (51 : ℤ)
    rw [Int.floor_eq_iff]
    norm_num
  rw [h]
  rfl

/-- The zero weights of `alrW512` fit the shapes `FeedForward(512, 2048, 0.1)`
allocates. -/
theorem ffWf_replicate512 : (FeedForward.make 512 (some 2048) (1 / 10) 0
    (List.replicate 51 (List.replicate 512 0)) (List.replicate 51 0)
    (List.replicate 2048 (List.replicate 51 0)) (List.replicate 2048 0)).Wf := by
  refine ⟨?_, ?_, ?_, ?_, ?_, ?_⟩
  · show (List.replicate 51 (List.replicate 512 (0 : ℝ))).length =
      ((1 / 10 : ℚ) * ((512 : Nat) : ℚ)).floor.toNat
    rw [List.length_replicate, floor_512_tenth]
  · show (List.replicate 51 (0 : ℝ)).length =
      ((1 / 10 : ℚ) * ((512 : Nat) : ℚ)).floor.toNat
    rw [List.length_replicate, floor_512_tenth]
  · intro r hr
    rw [List.eq_of_mem_replicate hr]
    exact List.length_replicate ..
  · exact List.length_replicate ..
  · exact List.length_replicate ..
  · intro r hr
    rw [List.eq_of_mem_replicate hr]
    show (List.replicate 51 (0 : ℝ)).length =
      ((1 / 10 : ℚ) * ((512 : Nat) : ℚ)).floor.toNat
    rw [List.length_replicate, floor_512_tenth]

/-- Witness for C2 at the module-level example itself: `ALRBlock(512, 2048,
0.1)` with zero weights on the zero tensor of shape (1, 1024, 512). -/
theorem alr_example_raises_witness :
    (ALRBlock.make 512 2048 (1 / 10) alrW512).Wf ∧ shape3 xExample 1 1024 512 ∧
    ALRBlock.forward3 (ALRBlock.make 512 2048 (1 / 10) alrW512) xExample =
      .error (.shapeMismatch 512 1536) := by
  have hw : (ALRBlock.make 512 2048 (1 / 10) alrW512).Wf := by
    refine ⟨ffWf_replicate512, ffWf_replicate512, List.length_replicate ..,
      List.length_replicate .., ?_, List.length_replicate .., List.length_replicate ..,
      ?_, List.length_replicate .., List.length_replicate .., ?_,
      List.length_replicate .., List.length_replicate ..⟩ <;>
      · intro r hr
        rw [List.eq_of_mem_replicate hr]
        exact List.length_replicate ..
  have hs : shape3 xExample 1 1024 512 := by
    refine ⟨rfl, ?_⟩
    intro m hm
    rw [xExample, List.mem_singleton] at hm
    subst hm
    refine ⟨List.length_replicate .., ?_⟩
    intro v hv
    rw [List.eq_of_mem_replicate hv]
    exact List.length_replicate ..
  exact ⟨hw, hs, alr_example_raises alrW512 xExample hw hs⟩

/-- C7: the repository defines no error handling of its own — with well-formed
weights a `FeedForward` forward succeeds exactly when the library's sole shape
check passes (no extra validation, retries or recovery), and every error an
`ALRBlock` forward produces is a library shape mismatch (never a
repository-defined exception). -/
theorem no_repository_error_handling :
    (∀ (p : FeedForwardP) (x : List ℝ), p.Wf →
      ((∃ y, FeedForward.forward p x = .ok y) ↔ x.length = p.dim)) ∧
    (∀ (p : ALRBlockP) (x : List ℝ) (e : PyErr),
      ALRBlock.forward p x = .error e → ∃ a c, e = .shapeMismatch a c) :=
  ⟨ff_forward_ok_iff, fun _ _ _ h => alr_forward_eq_error h⟩

/-- Witness for C7: a concrete well-formed `FeedForward` succeeds on a
matching input. -/
theorem no_repository_error_handling_witness :
    ff0.Wf ∧ (∃ y, FeedForward.forward ff0 [(0 : ℝ)] = .ok y) := by
  have hw : ff0.Wf := by
    simp [ff0, FeedForwardP.Wf]
  exact ⟨hw, (no_repository_error_handling.1 ff0 [0] hw).mpr rfl⟩

/-! ### Stage lemmas for the ParallelTransformerBlock pipeline -/

/-- Reading past the end gives the default. -/
theorem getD_of_le {α : Type} (l : List α) (i : Nat) (d : α) (h : l.length ≤ i) :
    l.getD i d = d := by
  rw [List.getD_eq_getElem?_getD, List.getElem?_eq_none h]
  rfl

/-- `nn.Linear` output length. -/
theorem linearL_length (W : List (List ℝ)) (b x : List ℝ) :
    (linearL W b x).length = min W.length b.length := by
  simp [linearL]

/-- Taking a prefix of a linear layer's output equals the linear layer with
the corresponding prefix of its rows. -/
theorem linearL_take (W : List (List ℝ)) (b x : List ℝ) (n : Nat) :
    (linearL W b x).take n = linearL (W.take n) (b.take n) x := by
  simp [linearL, List.take_zipWith]

/-- Dropping a prefix of a linear layer's output equals the linear layer with
the corresponding rows dropped. -/
theorem linearL_drop (W : List (List ℝ)) (b x : List ℝ) (n : Nat) :
    (linearL W b x).drop n = linearL (W.drop n) (b.drop n) x := by
  simp [linearL, List.drop_zipWith]

/-- The four consecutive segments of widths `A`, `dh`, `dh`, rest reassemble
any row. -/
theorem take_drop_split4 {α : Type} (r : List α) (A dh : Nat) :
    r.take A ++ (r.drop A).take dh ++ (r.drop (A + dh)).take dh ++
      r.drop (A + dh + dh) = r := by
  have h2 : r.drop (A + dh) = (r.drop A).drop dh := by
    rw [List.drop_drop]
  have h3 : r.drop (A + dh + dh) = ((r.drop A).drop dh).drop dh := by
    rw [List.drop_drop, List.drop_drop]
    congr 1
    omega
  rw [h2, h3, List.append_assoc, List.append_assoc,
    List.take_append_drop dh ((r.drop A).drop dh), List.take_append_drop dh (r.drop A),
    List.take_append_drop A r]

/-- `normed` preserves the sequence length. -/
theorem normed_length (p : PTBP) (x : List (List ℝ)) :
    (ParallelTransformerBlock.normed p x).length = x.length := by
  simp [ParallelTransformerBlock.normed]

/-- `fusedOut` preserves the sequence length. -/
theorem fusedOut_length (p : PTBP) (x : List (List ℝ)) :
    (ParallelTransformerBlock.fusedOut p x).length = x.length := by
  simp [ParallelTransformerBlock.fusedOut, normed_length]

/-- `qFlat` preserves the sequence length. -/
theorem qFlat_length (p : PTBP) (x : List (List ℝ)) :
    (ParallelTransformerBlock.qFlat p x).length = x.length := by
  simp [ParallelTransformerBlock.qFlat, fusedOut_length]

/-- `kPart` preserves the sequence length. -/
theorem kPart_length (p : PTBP) (x : List (List ℝ)) :
    (ParallelTransformerBlock.kPart p x).length = x.length := by
  simp [ParallelTransformerBlock.kPart, fusedOut_length]

/-- `vPart` preserves the sequence length. -/
theorem vPart_length (p : PTBP) (x : List (List ℝ)) :
    (ParallelTransformerBlock.vPart p x).length = x.length := by
  simp [ParallelTransformerBlock.vPart, fusedOut_length]

/-- `ffPart` preserves the sequence length. -/
theorem ffPart_length (p : PTBP) (x : List (List ℝ)) :
    (ParallelTransformerBlock.ffPart p x).length = x.length := by
  simp [ParallelTransformerBlock.ffPart, fusedOut_length]

/-- `qHead` preserves the sequence length. -/
theorem qHead_length (p : PTBP) (x : List (List ℝ)) (hh : Nat) :
    (ParallelTransformerBlock.qHead p x hh).length = x.length := by
  simp [ParallelTransformerBlock.qHead, qFlat_length]

/-- `qRotScaled` has one row per position when the positions match the
input. -/
theorem qRotScaled_length (p : PTBP) (pos x : List (List ℝ)) (hh : Nat)
    (hp : pos.length = x.length) :
    (ParallelTransformerBlock.qRotScaled p pos x hh).length = x.length := by
  simp [ParallelTransformerBlock.qRotScaled, qHead_length, hp]

/-- `kRot` has one row per position when the positions match the input. -/
theorem kRot_length (p : PTBP) (pos x : List (List ℝ))
    (hp : pos.length = x.length) :
    (ParallelTransformerBlock.kRot p pos x).length = x.length := by
  simp [ParallelTransformerBlock.kRot, kPart_length, hp]

/-- `sim` has one row per position when the positions match the input. -/
theorem sim_length (p : PTBP) (pos x : List (List ℝ)) (hh : Nat)
    (hp : pos.length = x.length) :
    (ParallelTransformerBlock.sim p pos x hh).length = x.length := by
  simp [ParallelTransformerBlock.sim, qRotScaled_length p pos x hh hp]

/-- Row `i` of `sim` is the dot of the rotary-scaled query row `i` against
every rotary key. -/
theorem sim_row (p : PTBP) (pos x : List (List ℝ)) (hh i : Nat)
    (hp : pos.length = x.length) (hi : i < x.length) :
    (ParallelTransformerBlock.sim p pos x hh).getD i [] =
      (ParallelTransformerBlock.kRot p pos x).map
        (fun kj => dotL ((ParallelTransformerBlock.qRotScaled p pos x hh).getD i []) kj) := by
  rw [ParallelTransformerBlock.sim,
    getD_map_of_lt _ _ i _ [] (by rw [qRotScaled_length p pos x hh hp]; exact hi)]

/-- C4: `ParallelTransformerBlock.forward` first RMS-norms its input, then
applies the single fused projection and splits its output along the last
dimension into exactly four parts of widths `(heads*dim_head, dim_head,
dim_head, dim*ff_mult)` — equivalently, four separate linear maps given by the
corresponding row blocks of the fused weight — yielding the multi-head
queries, one key and one value shared by all heads, and the feed-forward
branch; the four segments reassemble each fused row, and the similarity is
computed from the rotary-embedded scaled queries and the rotary-embedded
key. -/
theorem ptb_fused_projection_split (p : PTBP) (x : List (List ℝ))
    (pos : List (List ℝ))
    (hW : p.Wfused.length = p.fusedTotal ∧ p.bFused.length = p.fusedTotal)
    (hp : pos.length = x.length) :
    (ParallelTransformerBlock.qFlat p x = (ParallelTransformerBlock.normed p x).map
      (fun r => linearL (p.Wfused.take (p.heads * p.dimHead))
        (p.bFused.take (p.heads * p.dimHead)) r)) ∧
    (ParallelTransformerBlock.kPart p x = (ParallelTransformerBlock.normed p x).map
      (fun r => linearL ((p.Wfused.drop (p.heads * p.dimHead)).take p.dimHead)
        ((p.bFused.drop (p.heads * p.dimHead)).take p.dimHead) r)) ∧
    (ParallelTransformerBlock.vPart p x = (ParallelTransformerBlock.normed p x).map
      (fun r => linearL ((p.Wfused.drop (p.heads * p.dimHead + p.dimHead)).take p.dimHead)
        ((p.bFused.drop (p.heads * p.dimHead + p.dimHead)).take p.dimHead) r)) ∧
    (ParallelTransformerBlock.ffPart p x = (ParallelTransformerBlock.normed p x).map
      (fun r => linearL (p.Wfused.drop (p.heads * p.dimHead + p.dimHead + p.dimHead))
        (p.bFused.drop (p.heads * p.dimHead + p.dimHead + p.dimHead)) r)) ∧
    (∀ r ∈ ParallelTransformerBlock.qFlat p x, r.length = p.heads * p.dimHead) ∧
    (∀ r ∈ ParallelTransformerBlock.kPart p x, r.length = p.dimHead) ∧
    (∀ r ∈ ParallelTransformerBlock.vPart p x, r.length = p.dimHead) ∧
    (∀ r ∈ ParallelTransformerBlock.ffPart p x, r.length = p.dim * p.ffMult) ∧
    (∀ i : Nat, (ParallelTransformerBlock.qFlat p x).getD i [] ++
      (ParallelTransformerBlock.kPart p x).getD i [] ++
      (ParallelTransformerBlock.vPart p x).getD i [] ++
      (ParallelTransformerBlock.ffPart p x).getD i [] =
      (ParallelTransformerBlock.fusedOut p x).getD i []) ∧
    (∀ hh i j : Nat, i < x.length → j < x.length →
      ((ParallelTransformerBlock.sim p pos x hh).getD i []).getD j 0 =
        dotL ((apply_rotary_pos_emb (pos.getD i [])
            ((ParallelTransformerBlock.qHead p x hh).getD i [])).map
          (fun t => t * p.scale))
          (apply_rotary_pos_emb (pos.getD j [])
            ((ParallelTransformerBlock.kPart p x).getD j []))) := by
  have hA : p.heads * p.dimHead ≤ p.fusedTotal := by
    rw [PTBP.fusedTotal]
    omega
  refine ⟨?_, ?_, ?_, ?_, ?_, ?_, ?_, ?_, ?_, ?_⟩
  · rw [ParallelTransformerBlock.qFlat, ParallelTransformerBlock.fusedOut,
      List.map_map]
    simp only [Function.comp_def, linearL_take]
  · rw [ParallelTransformerBlock.kPart, ParallelTransformerBlock.fusedOut,
      List.map_map]
    simp only [Function.comp_def, linearL_drop, linearL_take]
  · rw [ParallelTransformerBlock.vPart, ParallelTransformerBlock.fusedOut,
      List.map_map]
    simp only [Function.comp_def, linearL_drop, linearL_take]
  · rw [ParallelTransformerBlock.ffPart, ParallelTransformerBlock.fusedOut,
      List.map_map]
    simp only [Function.comp_def, linearL_drop]
  · intro r hr
    simp only [ParallelTransformerBlock.qFlat, ParallelTransformerBlock.fusedOut,
      List.mem_map] at hr
    obtain ⟨q, ⟨a, _, rfl⟩, rfl⟩ := hr
    simp only [List.length_take, linearL_length, hW.1, hW.2]
    omega
  · intro r hr
    simp only [ParallelTransformerBlock.kPart, ParallelTransformerBlock.fusedOut,
      List.mem_map] at hr
    obtain ⟨q, ⟨a, _, rfl⟩, rfl⟩ := hr
    simp only [List.length_take, List.length_drop, linearL_length, hW.1, hW.2]
    rw [PTBP.fusedTotal] at hA ⊢
    omega
  · intro r hr
    simp only [ParallelTransformerBlock.vPart, ParallelTransformerBlock.fusedOut,
      List.mem_map] at hr
    obtain ⟨q, ⟨a, _, rfl⟩, rfl⟩ := hr
    simp only [List.length_take, List.length_drop, linearL_length, hW.1, hW.2]
    rw [PTBP.fusedTotal]
    omega
  · intro r hr
    simp only [ParallelTransformerBlock.ffPart, ParallelTransformerBlock.fusedOut,
      List.mem_map] at hr
    obtain ⟨q, ⟨a, _, rfl⟩, rfl⟩ := hr
    simp only [List.length_drop, linearL_length, hW.1, hW.2]
    rw [PTBP.fusedTotal]
    omega
  · intro i
    by_cases hi : i < x.length
    · have hif : i < (ParallelTransformerBlock.fusedOut p x).length := by
        rw [fusedOut_length]
        exact hi
      rw [ParallelTransformerBlock.qFlat, ParallelTransformerBlock.kPart,
        ParallelTransformerBlock.vPart, ParallelTransformerBlock.ffPart,
        getD_map_of_lt _ _ i _ [] hif, getD_map_of_lt _ _ i _ [] hif,
        getD_map_of_lt _ _ i _ [] hif, getD_map_of_lt _ _ i _ [] hif]
      exact take_drop_split4 _ _ _
    · push_neg at hi
      rw [getD_of_le _ _ _ (by rw [qFlat_length]; exact hi),
        getD_of_le _ _ _ (by rw [kPart_length]; exact hi),
        getD_of_le _ _ _ (by rw [vPart_length]; exact hi),
        getD_of_le _ _ _ (by rw [ffPart_length]; exact hi),
        getD_of_le _ _ _ (by rw [fusedOut_length]; exact hi)]
      rfl
  · intro hh i j hi hj
    rw [sim_row p pos x hh i hp hi,
      getD_map_of_lt _ _ j _ [] (by rw [kRot_length p pos x hp]; exact hj)]
    have hq : (ParallelTransformerBlock.qRotScaled p pos x hh).getD i [] =
        (apply_rotary_pos_emb (pos.getD i [])
          ((ParallelTransformerBlock.qHead p x hh).getD i [])).map
          (fun t => t * p.scale) := by
      rw [ParallelTransformerBlock.qRotScaled,
        getD_map_of_lt _ _ i _ [] (by simp [qHead_length, hp]; exact hi),
        getD_zipWith_of_lt _ _ _ i _ [] [] (by rw [hp]; exact hi)
          (by rw [qHead_length]; exact hi)]
    have hk : (ParallelTransformerBlock.kRot p pos x).getD j [] =
        apply_rotary_pos_emb (pos.getD j [])
          ((ParallelTransformerBlock.kPart p x).getD j []) := by
      rw [ParallelTransformerBlock.kRot,
        getD_zipWith_of_lt _ _ _ j _ [] [] (by rw [hp]; exact hj)
          (by rw [kPart_length]; exact hj)]
    rw [hq, hk]

/-- Witness for C4 at the concrete block `ptb0` on `x0`: the four split
segments of position 0 reassemble the fused projection's row. -/
theorem ptb_fused_projection_split_witness :
    (ParallelTransformerBlock.qFlat ptb0 x0).getD 0 [] ++
      (ParallelTransformerBlock.kPart ptb0 x0).getD 0 [] ++
      (ParallelTransformerBlock.vPart ptb0 x0).getD 0 [] ++
      (ParallelTransformerBlock.ffPart ptb0 x0).getD 0 [] =
      (ParallelTransformerBlock.fusedOut ptb0 x0).getD 0 [] :=
  (ptb_fused_projection_split ptb0 x0 (RotaryEmbedding.forward 2 2)
    ⟨rfl, rfl⟩ rfl).2.2.2.2.2.2.2.2.1 0

/-- Row `i` of `sim` has one column per position. -/
theorem sim_row_length (p : PTBP) (pos x : List (List ℝ)) (hh i : Nat)
    (hp : pos.length = x.length) (hi : i < x.length) :
    ((ParallelTransformerBlock.sim p pos x hh).getD i []).length = x.length := by
  rw [sim_row p pos x hh i hp hi]
  simp [kRot_length p pos x hp]

/-- Row `i` of the masked similarity: the row of `sim` filled with
`-floatMax` strictly above the diagonal. -/
theorem maskedSim_row (p : PTBP) (pos x : List (List ℝ)) (hh i : Nat)
    (hp : pos.length = x.length) (hi : i < x.length) :
    (ParallelTransformerBlock.maskedSim p pos (triuMask x.length) x hh).getD i [] =
      List.zipWith (fun s m => if m then -floatMax else s)
        ((ParallelTransformerBlock.sim p pos x hh).getD i [])
        ((List.range x.length).map (fun j2 => decide (i < j2))) := by
  rw [ParallelTransformerBlock.maskedSim,
    getD_zipWith_of_lt _ _ _ i _ [] []
      (by rw [sim_length p pos x hh hp]; exact hi)
      (by simpa [triuMask] using hi)]
  congr 1
  rw [triuMask, getD_map_of_lt _ _ i _ 0 (by simpa using hi),
    getD_range_of_lt _ _ _ hi]

/-- Entry `(i, j)` of the masked similarity, for `i, j` in range. -/
theorem maskedSim_entry (p : PTBP) (pos x : List (List ℝ)) (hh i j : Nat)
    (hp : pos.length = x.length) (hi : i < x.length) (hj : j < x.length) :
    ((ParallelTransformerBlock.maskedSim p pos (triuMask x.length) x hh).getD i
        []).getD j 0 =
      if i < j then -floatMax
      else ((ParallelTransformerBlock.sim p pos x hh).getD i []).getD j 0 := by
  rw [maskedSim_row p pos x hh i hp hi,
    getD_zipWith_of_lt _ _ _ j _ 0 false
      (by rw [sim_row_length p pos x hh i hp hi]; exact hj)
      (by simpa using hj),
    getD_map_of_lt _ _ j _ 0 (by simpa using hj), getD_range_of_lt _ _ _ hj]
  by_cases hij : i < j <;> simp [hij]

/-- Row `i` of the masked similarity has one column per position. -/
theorem maskedSim_row_length (p : PTBP) (pos x : List (List ℝ)) (hh i : Nat)
    (hp : pos.length = x.length) (hi : i < x.length) :
    ((ParallelTransformerBlock.maskedSim p pos (triuMask x.length) x hh).getD i
        []).length = x.length := by
  rw [maskedSim_row p pos x hh i hp hi, List.length_zipWith,
    sim_row_length p pos x hh i hp hi]
  simp

/-- Entry `(i, j)` of the post-softmax attention: the softmax quotient over
row `i` of the masked similarity. -/
theorem attn_entry (p : PTBP) (pos x : List (List ℝ)) (hh i j : Nat)
    (hp : pos.length = x.length) (hi : i < x.length) (hj : j < x.length) :
    ((ParallelTransformerBlock.attn p pos (triuMask x.length) x hh).getD i
        []).getD j 0 =
      Real.exp (((ParallelTransformerBlock.maskedSim p pos (triuMask x.length) x
          hh).getD i []).getD j 0) /
        (((ParallelTransformerBlock.maskedSim p pos (triuMask x.length) x
          hh).getD i []).map Real.exp).sum := by
  rw [ParallelTransformerBlock.attn,
    getD_map_of_lt _ _ i _ []
      (by
        rw [ParallelTransformerBlock.maskedSim, List.length_zipWith,
          sim_length p pos x hh hp]
        simp [triuMask, hi]),
    softmaxRow,
    getD_map_of_lt _ _ j _ 0
      (by rw [maskedSim_row_length p pos x hh i hp hi]; exact hj)]

/-- Exact-real analysis of the causal mask inside the forward pass: at every
masked pair `i < j` the similarity is the fill value `-floatMax`, and the
post-softmax weight is strictly positive yet bounded by
`exp(-floatMax) / exp(sim i i)`. -/
theorem causal_suppression_aux (p : PTBP) (x : List (List ℝ)) (hh i j : Nat)
    (hij : i < j) (hj : j < x.length) :
    ((ParallelTransformerBlock.maskedSim p
        (RotaryEmbedding.forward p.dimHead x.length) (triuMask x.length) x
        hh).getD i []).getD j 0 = -floatMax ∧
    0 < ((ParallelTransformerBlock.attn p
        (RotaryEmbedding.forward p.dimHead x.length) (triuMask x.length) x
        hh).getD i []).getD j 0 ∧
    ((ParallelTransformerBlock.attn p
        (RotaryEmbedding.forward p.dimHead x.length) (triuMask x.length) x
        hh).getD i []).getD j 0 ≤
      Real.exp (-floatMax) / Real.exp
        (((ParallelTransformerBlock.sim p
          (RotaryEmbedding.forward p.dimHead x.length) x hh).getD i []).getD i 0) := by
  have hp : (RotaryEmbedding.forward p.dimHead x.length).length = x.length :=
    rotForward_length _ _
  have hi : i < x.length := lt_trans hij hj
  have hmsij : ((ParallelTransformerBlock.maskedSim p
      (RotaryEmbedding.forward p.dimHead x.length) (triuMask x.length) x
      hh).getD i []).getD j 0 = -floatMax := by
    rw [maskedSim_entry p _ x hh i j hp hi hj, if_pos hij]
  have hmsii : ((ParallelTransformerBlock.maskedSim p
      (RotaryEmbedding.forward p.dimHead x.length) (triuMask x.length) x
      hh).getD i []).getD i 0 =
      ((ParallelTransformerBlock.sim p
        (RotaryEmbedding.forward p.dimHead x.length) x hh).getD i []).getD i 0 := by
    rw [maskedSim_entry p _ x hh i i hp hi hi, if_neg (lt_irrefl i)]
  have hlen : ((ParallelTransformerBlock.maskedSim p
      (RotaryEmbedding.forward p.dimHead x.length) (triuMask x.length) x
      hh).getD i []).length = x.length :=
    maskedSim_row_length p _ x hh i hp hi
  have hnonneg : ∀ y ∈ ((ParallelTransformerBlock.maskedSim p
      (RotaryEmbedding.forward p.dimHead x.length) (triuMask x.length) x
      hh).getD i []).map Real.exp, 0 ≤ y := by
    intro y hy
    obtain ⟨s, _, rfl⟩ := List.mem_map.1 hy
    exact (Real.exp_pos s).le
  have hge : Real.exp (((ParallelTransformerBlock.maskedSim p
      (RotaryEmbedding.forward p.dimHead x.length) (triuMask x.length) x
      hh).getD i []).getD i 0) ≤
      (((ParallelTransformerBlock.maskedSim p
        (RotaryEmbedding.forward p.dimHead x.length) (triuMask x.length) x
        hh).getD i []).map Real.exp).sum :=
    List.single_le_sum hnonneg _
      (List.mem_map_of_mem _ (getD_mem_of_lt _ _ _ (by rw [hlen]; exact hi)))
  have hSpos : 0 < (((ParallelTransformerBlock.maskedSim p
      (RotaryEmbedding.forward p.dimHead x.length) (triuMask x.length) x
      hh).getD i []).map Real.exp).sum :=
    lt_of_lt_of_le (Real.exp_pos _) hge
  have hattn := attn_entry p (RotaryEmbedding.forward p.dimHead x.length) x hh i j
    hp hi hj
  refine ⟨hmsij, ?_, ?_⟩
  · rw [hattn]
    exact div_pos (Real.exp_pos _) hSpos
  · rw [hattn, hmsij]
    refine div_le_div_of_nonneg_left (Real.exp_pos _).le (Real.exp_pos _) ?_
    rw [← hmsii]
    exact hge

/-- C3 (amended): in exact real arithmetic the causal mask fills the
similarity at every `(i, j)` with `j > i` with the dtype's most negative
value `-floatMax`, and the post-softmax weight there is positive — not zero —
but at most `exp(-floatMax) / exp(sim i i)`; it becomes exactly zero only
through floating-point underflow of `exp(-floatMax)`.  (The even head
dimension is what the einops reshape inside `rotate_half` requires.) -/
theorem causal_mask_suppresses_future (p : PTBP) (x : List (List ℝ))
    (hh i j : Nat) (_hev : p.dimHead % 2 = 0) (hij : i < j) (hj : j < x.length) :
    ((ParallelTransformerBlock.maskedSim p
        (RotaryEmbedding.forward p.dimHead x.length) (triuMask x.length) x
        hh).getD i []).getD j 0 = -floatMax ∧
    0 < ((ParallelTransformerBlock.attn p
        (RotaryEmbedding.forward p.dimHead x.length) (triuMask x.length) x
        hh).getD i []).getD j 0 ∧
    ((ParallelTransformerBlock.attn p
        (RotaryEmbedding.forward p.dimHead x.length) (triuMask x.length) x
        hh).getD i []).getD j 0 ≤
      Real.exp (-floatMax) / Real.exp
        (((ParallelTransformerBlock.sim p
          (RotaryEmbedding.forward p.dimHead x.length) x hh).getD i []).getD i 0) :=
  causal_suppression_aux p x hh i j hij hj

/-- Counterexample to C3 as stated: at the concrete block `ptb0` on the
two-position input `x0`, the post-softmax attention weight of query 0 on the
future key 1 is strictly positive — not zero — in exact real arithmetic. -/
theorem causal_attention_weight_not_zero :
    0 < ((ParallelTransformerBlock.attn ptb0
        (RotaryEmbedding.forward ptb0.dimHead x0.length) (triuMask x0.length) x0
        0).getD 0 []).getD 1 0 ∧
    ((ParallelTransformerBlock.attn ptb0
        (RotaryEmbedding.forward ptb0.dimHead x0.length) (triuMask x0.length) x0
        0).getD 0 []).getD 1 0 ≠ 0 := by
  have h := (causal_suppression_aux ptb0 x0 0 0 1 (by decide) (by decide)).2.1
  exact ⟨h, ne_of_gt h⟩

/-- Witness for the amended C3 at the concrete block `ptb0` on `x0`,
positions `(0, 1)`. -/
theorem causal_mask_suppresses_future_witness :
    ((ParallelTransformerBlock.maskedSim ptb0
        (RotaryEmbedding.forward ptb0.dimHead x0.length) (triuMask x0.length) x0
        0).getD 0 []).getD 1 0 = -floatMax ∧
    0 < ((ParallelTransformerBlock.attn ptb0
        (RotaryEmbedding.forward ptb0.dimHead x0.length) (triuMask x0.length) x0
        0).getD 0 []).getD 1 0 ∧
    ((ParallelTransformerBlock.attn ptb0
        (RotaryEmbedding.forward ptb0.dimHead x0.length) (triuMask x0.length) x0
        0).getD 0 []).getD 1 0 ≤
      Real.exp (-floatMax) / Real.exp
        (((ParallelTransformerBlock.sim ptb0
          (RotaryEmbedding.forward ptb0.dimHead x0.length) x0 0).getD 0
          []).getD 0 0) :=
  causal_mask_suppresses_future ptb0 x0 0 0 1 (by decide) (by decide) (by decide)
